import Mathlib

/-!
Verification of the Match engine of the Axelrod repository
(`axelrod/match.py`) against its specification, via a shallow embedding.

The match engine (`Match`, `is_stochastic`) is translated directly from
`axelrod/match.py`.  Its collaborators — `Player`, `Game`,
`DeterministicCache` and the interaction-statistics module — are not part
of the sources; they are modelled from the specification's interface
contracts (each such definition carries a doc comment saying so).
Mutable Python state is embedded by explicit state passing: `Match.play`
maps a match state (players, cache, stored result) to the updated state.
Randomness (noise flips and stochastic strategies) is embedded by an
explicit oracle `flips : Nat → Bool × Bool` giving, per turn, whether each
player's committed action is perturbed.
-/

namespace Axelrod

/-- The binary action type: Cooperate or Defect (`axelrod.actions.Actions`). -/
inductive Action : Type
  | C : Action
  | D : Action
deriving DecidableEq, Repr

/-- Flipping an action, used when noise perturbs a committed action. -/
def Action.flip : Action → Action
  | .C => .D
  | .D => .C

/-- Modelled from the spec: the Game collaborator is an immutable payoff
table with the four canonical payoff values Reward, Punishment, Sucker,
Temptation (`game.py` is not in the sources). -/
structure Game where
  r : ℚ
  p : ℚ
  s : ℚ
  t : ℚ
deriving DecidableEq, Repr

/-- Modelled from the spec: `Game.score(action_pair) -> (score, score)`,
the payoff lookup for one ordered action pair. -/
def Game.score (g : Game) : Action × Action → ℚ × ℚ
  | (.C, .C) => (g.r, g.r)
  | (.C, .D) => (g.s, g.t)
  | (.D, .C) => (g.t, g.s)
  | (.D, .D) => (g.p, g.p)

/-- Modelled from the spec: the default game `Game()` uses the standard
payoff values (R, P, S, T) = (3, 1, 0, 5). -/
def defaultGame : Game := ⟨3, 1, 0, 5⟩

/-- A value stored in a `match_attributes` mapping (the Python dict maps
attribute names to heterogeneous values: the length, the game, the noise). -/
inductive AttrVal : Type
  | intVal : Int → AttrVal
  | ratVal : ℚ → AttrVal
  | gameVal : Game → AttrVal
deriving DecidableEq, Repr

/-- The static part of a player: its classifier's `stochastic` flag and its
decision rule (own history and opponent history to an intended action). -/
structure PlayerSpec where
  stochastic : Bool
  strat : List Action → List Action → Action

/-- Modelled from the spec: the Player collaborator (`player.py` is not in
the sources).  `pid` is the player's stable identity used as a cache-key
component (the Python cache keys on the player objects themselves, whose
identity is stable while their internal state mutates); `history` and
`attrs` are its mutable per-match state. -/
structure Player where
  pid : Nat
  spec : PlayerSpec
  history : List Action
  attrs : List (String × AttrVal)

/-- Modelled from the spec: `Player.reset()` clears per-match mutable
state (the history). -/
def Player.reset (p : Player) : Player := { p with history := [] }

/-- Modelled from the spec: `set_match_attributes(**attrs)` informs a
player of the match context; it stores exactly the supplied mapping. -/
def Player.set_match_attributes (p : Player) (a : List (String × AttrVal)) :
    Player :=
  { p with attrs := a }

/-- Applying noise to a committed action: with `noise = 0` the action is
never perturbed; otherwise the oracle bit decides whether it is flipped. -/
def applyNoise (noise : ℚ) (flip : Bool) (a : Action) : Action :=
  if noise ≠ 0 ∧ flip = true then a.flip else a

/-- Modelled from the spec: `Player.play(opponent, noise)` advances both
sides' history by one turn — each player's intended action is computed
from the two current histories, possibly perturbed by noise, and appended
to that player's history. -/
def playTurn (noise : ℚ) (f : Bool × Bool) (p1 p2 : Player) :
    Player × Player :=
  let a1 := applyNoise noise f.1 (p1.spec.strat p1.history p2.history)
  let a2 := applyNoise noise f.2 (p2.spec.strat p2.history p1.history)
  ({ p1 with history := p1.history ++ [a1] },
   { p2 with history := p2.history ++ [a2] })

/-- The cache key type: the pair of player identities and the turn count
(`(players[0], players[1], turns)` in `Match.__init__`). -/
abbrev CacheKey : Type := Nat × Nat × Int

/-- An action record: one `(action_of_player_1, action_of_player_2)` pair
per completed turn. -/
abbrev ActionRecord : Type := List (Action × Action)

/-- Association-list lookup for the cache's underlying store. -/
def assocLookup : List (CacheKey × ActionRecord) → CacheKey → Option ActionRecord
  | [], _ => none
  | (k, v) :: rest, key => if k = key then some v else assocLookup rest key

/-- Modelled from the spec: the Deterministic Cache collaborator
(`deterministic_cache.py` is not in the sources) — a key/value store from
cache keys to action records with a `mutable` flag gating writes. -/
structure DCache where
  mutable : Bool
  entries : List (CacheKey × ActionRecord)

/-- Cache read: the record stored under a key, if any. -/
def DCache.lookup (c : DCache) (k : CacheKey) : Option ActionRecord :=
  assocLookup c.entries k

/-- Cache membership test (`key in cache`). -/
def DCache.containsKey (c : DCache) (k : CacheKey) : Bool :=
  (c.lookup k).isSome

/-- Cache indexed read (`cache[key]`); total via a default, only used
under a membership guard. -/
def DCache.get (c : DCache) (k : CacheKey) : ActionRecord :=
  (c.lookup k).getD []

/-- Cache indexed write (`cache[key] = record`). -/
def DCache.insert (c : DCache) (k : CacheKey) (v : ActionRecord) : DCache :=
  { c with entries := (k, v) :: c.entries }

/-- `is_stochastic(players, noise)` from `match.py`: true if there is
noise or any of the players involved is stochastic.  (Python returns
`noise or any(...)`; its truthiness is `noise ≠ 0 ∨ any(...)`.) -/
def is_stochastic (players : List Player) (noise : ℚ) : Bool :=
  decide (noise ≠ 0) || players.any (fun p => p.spec.stochastic)

/-- The `Match` state, translated from `Match.__init__`'s fields:
the stored result, `turns`, the cache key computed at construction,
`noise`, the game, the cache, the `match_attributes` mapping and the
current pair of players (`_players`). -/
structure Match where
  result : ActionRecord
  turns : Int
  cache_key : CacheKey
  noise : ℚ
  game : Game
  cache : DCache
  match_attributes : List (String × AttrVal)
  players : Player × Player

/-- The `players` property setter: every assignment re-applies the match
attributes to the assigned players before storing them. -/
def Match.setPlayers (m : Match) (ps : Player × Player) : Match :=
  { m with players := (ps.1.set_match_attributes m.match_attributes,
                       ps.2.set_match_attributes m.match_attributes) }

/-- `Match.__init__(players, turns, game, deterministic_cache, noise,
match_attributes)`: stores the configuration, computes the cache key from
the supplied players and `turns`, defaults the game and cache, builds the
default `match_attributes` mapping when none is supplied, and assigns the
players through the setter.  No argument is validated. -/
def Match.init (players : Player × Player) (turns : Int)
    (game : Option Game) (deterministic_cache : Option DCache)
    (noise : ℚ) (match_attributes : Option (List (String × AttrVal))) :
    Match :=
  let g := match game with
    | none => defaultGame
    | some g0 => g0
  let c := match deterministic_cache with
    | none => { mutable := true, entries := [] }
    | some c0 => c0
  let ma := match match_attributes with
    | none => [("length", AttrVal.intVal turns),
               ("game", AttrVal.gameVal g),
               ("noise", AttrVal.ratVal noise)]
    | some d => d
  Match.setPlayers
    { result := [],
      turns := turns,
      cache_key := (players.1.pid, players.2.pid, turns),
      noise := noise,
      game := g,
      cache := c,
      match_attributes := ma,
      players := players }
    players

/-- The `_stochastic` property: `is_stochastic(self.players, self.noise)`,
recomputed from the current players and noise on every use. -/
def Match.stochastic (m : Match) : Bool :=
  is_stochastic [m.players.1, m.players.2] m.noise

/-- The `_cache_update_required` property: no noise, the cache is mutable,
and no player's classifier is stochastic. -/
def Match.cache_update_required (m : Match) : Bool :=
  decide (m.noise = 0) && m.cache.mutable &&
    !(m.players.1.spec.stochastic || m.players.2.spec.stochastic)

/-- The turn-driving `while` loop of `Match.play`: run `n` further turns
(the counter `t` indexes the noise oracle). -/
def runTurns (noise : ℚ) (flips : Nat → Bool × Bool) :
    Nat → Nat → Player → Player → Player × Player
  | 0, _, p1, p2 => (p1, p2)
  | n + 1, t, p1, p2 =>
      let q := playTurn noise (flips t) p1 p2
      runTurns noise flips n (t + 1) q.1 q.2

/-- `Match.play()`: if the match is stochastic or the cache key is absent,
reset both players, play `turns` turns (the loop `while turn < turns` runs
`turns.toNat` iterations), zip the two histories into the result, and
write it to the cache when `_cache_update_required`; otherwise read the
result from the cache.  Store the result on the match. -/
def Match.play (m : Match) (flips : Nat → Bool × Bool) : Match :=
  if m.stochastic || !(m.cache.containsKey m.cache_key) then
    let q := runTurns m.noise flips m.turns.toNat 0
      m.players.1.reset m.players.2.reset
    let result := q.1.history.zip q.2.history
    let m' := { m with players := q, result := result }
    if m'.cache_update_required then
      { m' with cache := m'.cache.insert m'.cache_key result }
    else
      m'
  else
    { m with result := m.cache.get m.cache_key }

/-- `Match.__len__`: the configured number of turns. -/
def Match.len (m : Match) : Int := m.turns

/-- Modelled from the spec: `compute_final_score` of the
interaction-statistics module (`interaction_utils.py` is not in the
sources) — the per-player sums of the per-turn payoffs, or a no-data
marker (`None`) when the record is empty. -/
def compute_final_score (record : ActionRecord) (g : Game) :
    Option (ℚ × ℚ) :=
  match record with
  | [] => none
  | _ => some ((record.map g.score).foldl
      (fun acc x => (acc.1 + x.1, acc.2 + x.2)) (0, 0))

/-- The result of `compute_winner_index`: a winning index, a tie marker
(`False` in Python), or a no-plays marker (`None` in Python). -/
inductive WinnerIx : Type
  | tie : WinnerIx
  | noPlays : WinnerIx
  | one : WinnerIx
  | two : WinnerIx
deriving DecidableEq, Repr

/-- Modelled from the spec: `compute_winner_index` of the
interaction-statistics module — the index of the player with the strictly
higher final score, the tie marker on equal scores, and the no-plays
marker on an empty record. -/
def compute_winner_index (record : ActionRecord) (g : Game) : WinnerIx :=
  match compute_final_score record g with
  | none => .noPlays
  | some (s1, s2) =>
      if s1 = s2 then .tie
      else if s1 > s2 then .one
      else .two

/-- The value returned by `Match.winner()`: a player, the "no winner"
sentinel (`False` in Python), or the distinct "no data" sentinel
(`None` in Python). -/
inductive WinnerResult : Type
  | noWinner : WinnerResult
  | noData : WinnerResult
  | winner : Player → WinnerResult

/-- `Match.winner()`: translate `compute_winner_index` on the stored
result — `False` becomes the no-winner sentinel, `None` the no-data
sentinel, an index the corresponding current player. -/
def Match.winner (m : Match) : WinnerResult :=
  match compute_winner_index m.result m.game with
  | .tie => .noWinner
  | .noPlays => .noData
  | .one => .winner m.players.1
  | .two => .winner m.players.2

/-! ### Supporting lemmas -/

theorem playTurn_fst_spec (noise : ℚ) (f : Bool × Bool) (p1 p2 : Player) :
    ((playTurn noise f p1 p2).1).spec = p1.spec := rfl

theorem playTurn_snd_spec (noise : ℚ) (f : Bool × Bool) (p1 p2 : Player) :
    ((playTurn noise f p1 p2).2).spec = p2.spec := rfl

theorem runTurns_fst_spec (noise : ℚ) (flips : Nat → Bool × Bool) :
    ∀ (n t : Nat) (p1 p2 : Player),
      ((runTurns noise flips n t p1 p2).1).spec = p1.spec := by
  intro n
  induction n with
  | zero => intro t p1 p2; rfl
  | succ n ih =>
      intro t p1 p2
      simp only [runTurns]
      rw [ih]
      rfl

theorem runTurns_snd_spec (noise : ℚ) (flips : Nat → Bool × Bool) :
    ∀ (n t : Nat) (p1 p2 : Player),
      ((runTurns noise flips n t p1 p2).2).spec = p2.spec := by
  intro n
  induction n with
  | zero => intro t p1 p2; rfl
  | succ n ih =>
      intro t p1 p2
      simp only [runTurns]
      rw [ih]
      rfl

theorem runTurns_fst_hist (noise : ℚ) (flips : Nat → Bool × Bool) :
    ∀ (n t : Nat) (p1 p2 : Player),
      ((runTurns noise flips n t p1 p2).1).history.length
        = p1.history.length + n := by
  intro n
  induction n with
  | zero => intro t p1 p2; rfl
  | succ n ih =>
      intro t p1 p2
      simp only [runTurns]
      rw [ih]
      simp [playTurn]
      omega

theorem runTurns_snd_hist (noise : ℚ) (flips : Nat → Bool × Bool) :
    ∀ (n t : Nat) (p1 p2 : Player),
      ((runTurns noise flips n t p1 p2).2).history.length
        = p2.history.length + n := by
  intro n
  induction n with
  | zero => intro t p1 p2; rfl
  | succ n ih =>
      intro t p1 p2
      simp only [runTurns]
      rw [ih]
      simp [playTurn]
      omega

theorem DCache.lookup_insert_self (c : DCache) (k : CacheKey)
    (v : ActionRecord) : (c.insert k v).lookup k = some v := by
  simp [DCache.insert, DCache.lookup, assocLookup]

theorem DCache.lookup_insert_ne (c : DCache) (k k' : CacheKey)
    (v : ActionRecord) (h : k' ≠ k) :
    (c.insert k v).lookup k' = c.lookup k' := by
  simp only [DCache.insert, DCache.lookup, assocLookup]
  rw [if_neg (fun he => h he.symm)]

theorem DCache.containsKey_iff (c : DCache) (k : CacheKey) :
    c.containsKey k = true ↔ ∃ v, c.lookup k = some v := by
  simp [DCache.containsKey, Option.isSome_iff_exists]

/-- The abbreviation used throughout for the fresh-simulation outcome:
the pair of players after reset and `turns.toNat` played turns. -/
def Match.freshPlayers (m : Match) (flips : Nat → Bool × Bool) :
    Player × Player :=
  runTurns m.noise flips m.turns.toNat 0 m.players.1.reset m.players.2.reset

theorem Match.play_of_fresh (m : Match) (flips : Nat → Bool × Bool)
    (h : m.stochastic = true ∨ m.cache.containsKey m.cache_key = false) :
    m.play flips =
      (let q := m.freshPlayers flips
       let result := q.1.history.zip q.2.history
       let m' := { m with players := q, result := result }
       if m'.cache_update_required then
         { m' with cache := m'.cache.insert m'.cache_key result }
       else m') := by
  have hc : (m.stochastic || !(m.cache.containsKey m.cache_key)) = true := by
    rcases h with h | h <;> simp [h]
  unfold Match.play
  rw [hc]
  rfl

theorem Match.play_of_hit (m : Match) (flips : Nat → Bool × Bool)
    (h1 : m.stochastic = false)
    (h2 : m.cache.containsKey m.cache_key = true) :
    m.play flips = { m with result := m.cache.get m.cache_key } := by
  have hc : (m.stochastic || !(m.cache.containsKey m.cache_key)) = false := by
    simp [h1, h2]
  unfold Match.play
  rw [hc]
  rfl

theorem Match.freshPlayers_fst_spec (m : Match) (flips : Nat → Bool × Bool) :
    ((m.freshPlayers flips).1).spec = m.players.1.spec := by
  unfold Match.freshPlayers
  rw [runTurns_fst_spec]
  rfl

theorem Match.freshPlayers_snd_spec (m : Match) (flips : Nat → Bool × Bool) :
    ((m.freshPlayers flips).2).spec = m.players.2.spec := by
  unfold Match.freshPlayers
  rw [runTurns_snd_spec]
  rfl

theorem Match.freshPlayers_fst_hist (m : Match) (flips : Nat → Bool × Bool) :
    ((m.freshPlayers flips).1).history.length = m.turns.toNat := by
  unfold Match.freshPlayers
  rw [runTurns_fst_hist]
  simp [Player.reset]

theorem Match.freshPlayers_snd_hist (m : Match) (flips : Nat → Bool × Bool) :
    ((m.freshPlayers flips).2).history.length = m.turns.toNat := by
  unfold Match.freshPlayers
  rw [runTurns_snd_hist]
  simp [Player.reset]

theorem Match.update_required_set (m : Match) (q : Player × Player)
    (r : ActionRecord) (h1 : q.1.spec = m.players.1.spec)
    (h2 : q.2.spec = m.players.2.spec) :
    ({ m with players := q, result := r } : Match).cache_update_required
      = m.cache_update_required := by
  simp [Match.cache_update_required, h1, h2]

theorem Match.play_fresh_players (m : Match) (flips : Nat → Bool × Bool)
    (h : m.stochastic = true ∨ m.cache.containsKey m.cache_key = false) :
    (m.play flips).players = m.freshPlayers flips := by
  rw [Match.play_of_fresh m flips h]
  dsimp only
  split <;> rfl

theorem Match.play_fresh_result (m : Match) (flips : Nat → Bool × Bool)
    (h : m.stochastic = true ∨ m.cache.containsKey m.cache_key = false) :
    (m.play flips).result
      = ((m.freshPlayers flips).1.history).zip
          ((m.freshPlayers flips).2.history) := by
  rw [Match.play_of_fresh m flips h]
  dsimp only
  split <;> rfl

theorem Match.play_fresh_cache (m : Match) (flips : Nat → Bool × Bool)
    (h : m.stochastic = true ∨ m.cache.containsKey m.cache_key = false) :
    (m.play flips).cache
      = (if m.cache_update_required then
           m.cache.insert m.cache_key
             (((m.freshPlayers flips).1.history).zip
               ((m.freshPlayers flips).2.history))
         else m.cache) := by
  rw [Match.play_of_fresh m flips h]
  dsimp only
  rw [Match.update_required_set m (m.freshPlayers flips) _
    (Match.freshPlayers_fst_spec m flips) (Match.freshPlayers_snd_spec m flips)]
  split <;> rfl

theorem Match.play_scalars (m : Match) (flips : Nat → Bool × Bool) :
    (m.play flips).turns = m.turns ∧
    (m.play flips).cache_key = m.cache_key ∧
    (m.play flips).noise = m.noise ∧
    (m.play flips).game = m.game ∧
    (m.play flips).match_attributes = m.match_attributes := by
  by_cases hs : m.stochastic = true ∨ m.cache.containsKey m.cache_key = false
  · rw [Match.play_of_fresh m flips hs]
    dsimp only
    split <;> exact ⟨rfl, rfl, rfl, rfl, rfl⟩
  · push_neg at hs
    rw [Match.play_of_hit m flips (Bool.not_eq_true _ ▸ hs.1)
      (Bool.not_eq_false _ ▸ hs.2)]
    exact ⟨rfl, rfl, rfl, rfl, rfl⟩

theorem Match.play_players_spec (m : Match) (flips : Nat → Bool × Bool) :
    ((m.play flips).players.1).spec = m.players.1.spec ∧
    ((m.play flips).players.2).spec = m.players.2.spec := by
  by_cases hs : m.stochastic = true ∨ m.cache.containsKey m.cache_key = false
  · rw [Match.play_fresh_players m flips hs]
    exact ⟨Match.freshPlayers_fst_spec m flips, Match.freshPlayers_snd_spec m flips⟩
  · push_neg at hs
    rw [Match.play_of_hit m flips (Bool.not_eq_true _ ▸ hs.1)
      (Bool.not_eq_false _ ▸ hs.2)]
    exact ⟨rfl, rfl⟩

theorem Match.play_stochastic (m : Match) (flips : Nat → Bool × Bool) :
    (m.play flips).stochastic = m.stochastic := by
  have hp := Match.play_players_spec m flips
  have hn := (Match.play_scalars m flips).2.2.1
  simp [Match.stochastic, is_stochastic, hp.1, hp.2, hn]

theorem Match.stochastic_iff (m : Match) :
    m.stochastic = true ↔
      (m.noise ≠ 0 ∨ m.players.1.spec.stochastic = true ∨
        m.players.2.spec.stochastic = true) := by
  simp [Match.stochastic, is_stochastic]

theorem Match.cache_update_required_iff (m : Match) :
    m.cache_update_required = true ↔
      (m.noise = 0 ∧ m.cache.mutable = true ∧
       m.players.1.spec.stochastic = false ∧
       m.players.2.spec.stochastic = false) := by
  simp [Match.cache_update_required, and_assoc]

/-! ### Concrete fixtures used by the witnesses -/

/-- A deterministic always-cooperate decision rule. -/
def coopSpec : PlayerSpec := ⟨false, fun _ _ => Action.C⟩

/-- A fresh always-cooperate player with the given identity. -/
def coopPlayer (i : Nat) : Player := ⟨i, coopSpec, [], []⟩

/-- A player whose classifier marks it stochastic. -/
def stochPlayer (i : Nat) : Player := ⟨i, ⟨true, fun _ _ => Action.C⟩, [], []⟩

/-- A noise oracle that never flips. -/
def noFlips : Nat → Bool × Bool := fun _ => (false, false)

/-- A two-turn deterministic match over an empty fresh cache. -/
def m0 : Match := Match.init (coopPlayer 0, coopPlayer 1) 2 none none 0 none

/-- A two-turn deterministic match whose cache already holds its key. -/
def mHit : Match :=
  Match.init (coopPlayer 0, coopPlayer 1) 2 none
    (some ⟨true, [((0, 1, 2), [(Action.C, Action.C), (Action.C, Action.C)])]⟩)
    0 none

/-- A match over a frozen (immutable) cache. -/
def mFrozen : Match :=
  Match.init (coopPlayer 0, coopPlayer 1) 2 none
    (some ⟨false, []⟩) 0 none

/-- A noisy match (noise 1/2) between deterministic players. -/
def mNoisy : Match :=
  Match.init (coopPlayer 0, coopPlayer 1) 2 none none (1 / 2) none

/-! ### The claims -/

/-- C1: `play()` performs a fresh simulation iff the match is stochastic or
the cache key is absent; on the fresh path it first resets both players
(`Match.freshPlayers` is reset-then-`runTurns`), runs exactly
`turns` (`turns.toNat`) iterations of player 1's play against player 2,
and pairs the two histories in turn order; on the other path it returns
the cached record for the key with the players untouched and the cache
unchanged. -/
theorem claim1_play_branches (m : Match) (flips : Nat → Bool × Bool) :
    ((m.stochastic = true ∨ m.cache.containsKey m.cache_key = false) →
      (m.play flips).players = m.freshPlayers flips ∧
      (m.play flips).result
        = ((m.freshPlayers flips).1.history).zip
            ((m.freshPlayers flips).2.history) ∧
      ((m.freshPlayers flips).1).history.length = m.turns.toNat ∧
      ((m.freshPlayers flips).2).history.length = m.turns.toNat) ∧
    ((m.stochastic = false ∧ m.cache.containsKey m.cache_key = true) →
      (m.play flips).result = m.cache.get m.cache_key ∧
      (m.play flips).players = m.players ∧
      (m.play flips).cache = m.cache) := by
  constructor
  · intro h
    exact ⟨Match.play_fresh_players m flips h,
      Match.play_fresh_result m flips h,
      Match.freshPlayers_fst_hist m flips,
      Match.freshPlayers_snd_hist m flips⟩
  · intro h
    rw [Match.play_of_hit m flips h.1 h.2]
    exact ⟨rfl, rfl, rfl⟩

/-- Witness for C1: the fresh branch at a match with an empty cache, and
the cached branch at a match whose cache holds its key. -/
theorem claim1_witness :
    (m0.stochastic = false ∧ m0.cache.containsKey m0.cache_key = false ∧
      (m0.play noFlips).result
        = ((m0.freshPlayers noFlips).1.history).zip
            ((m0.freshPlayers noFlips).2.history)) ∧
    (mHit.stochastic = false ∧ mHit.cache.containsKey mHit.cache_key = true ∧
      (mHit.play noFlips).result = mHit.cache.get mHit.cache_key ∧
      (mHit.play noFlips).players = mHit.players) := by
  refine ⟨⟨rfl, rfl, ?_⟩, ⟨rfl, rfl, ?_, ?_⟩⟩
  · exact ((claim1_play_branches m0 noFlips).1 (Or.inr rfl)).2.1
  · exact ((claim1_play_branches mHit noFlips).2 ⟨rfl, rfl⟩).1
  · exact ((claim1_play_branches mHit noFlips).2 ⟨rfl, rfl⟩).2.1

/-- C2: when noise is nonzero or a player is classified stochastic,
`play()` neither writes to the cache (the cache is returned unchanged)
nor reads from it (the produced record does not depend on the cache's
contents). -/
theorem claim2_stochastic_no_cache_io (m : Match) (flips : Nat → Bool × Bool)
    (h : m.noise ≠ 0 ∨ m.players.1.spec.stochastic = true ∨
      m.players.2.spec.stochastic = true) :
    (m.play flips).cache = m.cache ∧
    ∀ c' : DCache,
      (({ m with cache := c' } : Match).play flips).result
        = (m.play flips).result := by
  have hs : m.stochastic = true := (Match.stochastic_iff m).mpr h
  have hupd : m.cache_update_required = false := by
    rw [Bool.eq_false_iff]
    intro hu
    rcases (Match.cache_update_required_iff m).mp hu with ⟨h0, _, h1, h2⟩
    rcases h with h | h | h
    · exact h h0
    · rw [h1] at h; exact Bool.false_ne_true h
    · rw [h2] at h; exact Bool.false_ne_true h
  constructor
  · rw [Match.play_fresh_cache m flips (Or.inl hs), hupd]
    rfl
  · intro c'
    rw [Match.play_fresh_result m flips (Or.inl hs),
      Match.play_fresh_result ({ m with cache := c' } : Match) flips
        (Or.inl hs)]
    rfl

/-- Witness for C2 at a noisy match between deterministic players. -/
theorem claim2_witness :
    mNoisy.noise ≠ 0 ∧ (mNoisy.play noFlips).cache = mNoisy.cache :=
  ⟨by norm_num [mNoisy, Match.init, Match.setPlayers],
   (claim2_stochastic_no_cache_io mNoisy noFlips
     (Or.inl (by norm_num [mNoisy, Match.init, Match.setPlayers]))).1⟩

/-- C3: a completed `play()` leaves the cache holding the produced record
under the match's key exactly when noise is 0, the cache is mutable and
neither player is classified stochastic (all other keys untouched); if
any condition fails the cache is returned unchanged. -/
theorem claim3_cache_write_iff (m : Match) (flips : Nat → Bool × Bool) :
    ((m.noise = 0 ∧ m.cache.mutable = true ∧
        m.players.1.spec.stochastic = false ∧
        m.players.2.spec.stochastic = false) →
      ((m.play flips).cache).lookup m.cache_key
          = some ((m.play flips).result) ∧
      ∀ k : CacheKey, k ≠ m.cache_key →
        ((m.play flips).cache).lookup k = m.cache.lookup k) ∧
    (¬(m.noise = 0 ∧ m.cache.mutable = true ∧
        m.players.1.spec.stochastic = false ∧
        m.players.2.spec.stochastic = false) →
      (m.play flips).cache = m.cache) := by
  constructor
  · intro h
    have hupd : m.cache_update_required = true :=
      (Match.cache_update_required_iff m).mpr h
    have hs : m.stochastic = false := by
      rw [Bool.eq_false_iff]
      intro hst
      rcases (Match.stochastic_iff m).mp hst with h' | h' | h'
      · exact h' h.1
      · rw [h.2.2.1] at h'; exact Bool.false_ne_true h'
      · rw [h.2.2.2] at h'; exact Bool.false_ne_true h'
    by_cases hk : m.cache.containsKey m.cache_key = true
    · rw [Match.play_of_hit m flips hs hk]
      rcases (DCache.containsKey_iff m.cache m.cache_key).mp hk with ⟨v, hv⟩
      constructor
      · show m.cache.lookup m.cache_key = some (m.cache.get m.cache_key)
        rw [hv]
        simp [DCache.get, hv]
      · intro k _
        rfl
    · have hk' : m.cache.containsKey m.cache_key = false :=
        Bool.not_eq_true _ ▸ hk
      rw [Match.play_fresh_cache m flips (Or.inr hk'), hupd,
        Match.play_fresh_result m flips (Or.inr hk')]
      simp only [if_pos]
      exact ⟨DCache.lookup_insert_self _ _ _,
        fun k hne => DCache.lookup_insert_ne _ _ _ _ hne⟩
  · intro h
    have hupd : m.cache_update_required = false := by
      rw [Bool.eq_false_iff]
      intro hu
      exact h ((Match.cache_update_required_iff m).mp hu)
    by_cases hc : m.stochastic = true ∨ m.cache.containsKey m.cache_key = false
    · rw [Match.play_fresh_cache m flips hc, hupd]
      rfl
    · push_neg at hc
      rw [Match.play_of_hit m flips (Bool.not_eq_true _ ▸ hc.1)
        (Bool.not_eq_false _ ▸ hc.2)]

/-- Witness for C3: the eligible branch at a deterministic match over a
fresh mutable cache, and the ineligible branch at a match over a frozen
cache. -/
theorem claim3_witness :
    (((m0.play noFlips).cache).lookup m0.cache_key
        = some ((m0.play noFlips).result)) ∧
    (mFrozen.cache.mutable = false ∧
      (mFrozen.play noFlips).cache = mFrozen.cache) := by
  refine ⟨((claim3_cache_write_iff m0 noFlips).1 ⟨rfl, rfl, rfl, rfl⟩).1,
    rfl, (claim3_cache_write_iff mFrozen noFlips).2 ?_⟩
  intro h
  exact Bool.false_ne_true h.2.1

/-- C4: a match is classified stochastic iff noise is positive or some
player's classifier is stochastic (on the valid noise domain `0 ≤ noise`),
and the classification is recomputed from the current players on every
use: after any reassignment of the `players` property it reflects the
newly assigned players. -/
theorem claim4_stochastic_classification (m : Match) (h : 0 ≤ m.noise) :
    (m.stochastic = true ↔
      (0 < m.noise ∨ m.players.1.spec.stochastic = true ∨
        m.players.2.spec.stochastic = true)) ∧
    (∀ p q : Player,
      ((m.setPlayers (p, q)).stochastic)
        = (decide (m.noise ≠ 0) || p.spec.stochastic || q.spec.stochastic)) := by
  constructor
  · rw [Match.stochastic_iff m]
    have : m.noise ≠ 0 ↔ 0 < m.noise := by
      constructor
      · intro hne; exact lt_of_le_of_ne h (Ne.symm hne)
      · intro hlt; exact ne_of_gt hlt
    rw [this]
  · intro p q
    simp [Match.setPlayers, Match.stochastic, is_stochastic,
      Player.set_match_attributes, Bool.or_assoc]

/-- Witness for C4 at a noisy match: noise 1/2 classifies as stochastic,
and reassigning a stochastic player keeps the classification true. -/
theorem claim4_witness :
    (0 ≤ mNoisy.noise ∧ mNoisy.stochastic = true) ∧
    (mNoisy.setPlayers (stochPlayer 0, coopPlayer 1)).stochastic
      = (decide (mNoisy.noise ≠ 0) || (stochPlayer 0).spec.stochastic
          || (coopPlayer 1).spec.stochastic) := by
  have h : (0 : ℚ) ≤ mNoisy.noise := by norm_num [mNoisy, Match.init, Match.setPlayers]
  refine ⟨⟨h, ?_⟩, (claim4_stochastic_classification mNoisy h).2 (stochPlayer 0) (coopPlayer 1)⟩
  exact (claim4_stochastic_classification mNoisy h).1.mpr
    (Or.inl (by norm_num [mNoisy, Match.init, Match.setPlayers]))

/-- A match constructed with a negative `turns` and an out-of-range
`noise`; the constructor does not reject it. -/
def mBad : Match := Match.init (coopPlayer 0, coopPlayer 1) (-1) none none 2 none

/-- C5 counterexample: a Match constructed with `turns = -1` and
`noise = 2` is produced (no error); the invalid values are stored
unchanged, and `play()` on it returns an empty record. -/
theorem claim5_counterexample :
    mBad.turns = -1 ∧ mBad.noise = 2 ∧ (mBad.play noFlips).result = [] :=
  ⟨rfl, rfl, rfl⟩

/-- C5 (amended): the constructor performs no validation: for every
`turns` (negative included) and every `noise` (outside `[0,1]` included)
it produces a Match storing those values unchanged. -/
theorem claim5_no_validation (players : Player × Player) (turns : Int)
    (game : Option Game) (dc : Option DCache) (noise : ℚ)
    (ma : Option (List (String × AttrVal))) :
    (Match.init players turns game dc noise ma).turns = turns ∧
    (Match.init players turns game dc noise ma).noise = noise :=
  ⟨rfl, rfl⟩

/-- Well-formedness of a cache: every stored record's length is the turn
count of its key — exactly what this engine's writes maintain. -/
def cacheWF (c : DCache) : Prop :=
  ∀ (k : CacheKey) (v : ActionRecord), c.lookup k = some v → v.length = k.2.2.toNat

/-- The empty cache is well formed. -/
theorem cacheWF_empty : cacheWF { mutable := true, entries := [] } := by
  intro k v h
  simp [DCache.lookup, assocLookup] at h

/-- C6: `len(match)` equals the configured `turns` before and after
`play()`, and the record stored by any `play()` call has length exactly
`turns` — given a non-negative `turns`, a cache key consistent with
`turns` (as the constructor guarantees) and a cache whose entries were
written by this engine (`cacheWF`); moreover `play()` preserves
`cacheWF`. -/
theorem claim6_lengths (m : Match) (flips : Nat → Bool × Bool)
    (h0 : 0 ≤ m.turns) (hk : m.cache_key.2.2 = m.turns)
    (hwf : cacheWF m.cache) :
    Match.len m = m.turns ∧ Match.len (m.play flips) = m.turns ∧
    (((m.play flips).result.length : Int) = m.turns) ∧
    cacheWF ((m.play flips).cache) := by
  refine ⟨rfl, (Match.play_scalars m flips).1, ?_, ?_⟩
  · by_cases hc : m.stochastic = true ∨ m.cache.containsKey m.cache_key = false
    · rw [Match.play_fresh_result m flips hc, List.length_zip,
        Match.freshPlayers_fst_hist, Match.freshPlayers_snd_hist, min_self]
      exact Int.toNat_of_nonneg h0
    · push_neg at hc
      rw [Match.play_of_hit m flips (Bool.not_eq_true _ ▸ hc.1)
        (Bool.not_eq_false _ ▸ hc.2)]
      rcases (DCache.containsKey_iff m.cache m.cache_key).mp
        (Bool.not_eq_false _ ▸ hc.2) with ⟨v, hv⟩
      show ((m.cache.get m.cache_key).length : Int) = m.turns
      rw [DCache.get, hv, Option.getD_some, hwf m.cache_key v hv, hk]
      exact Int.toNat_of_nonneg h0
  · by_cases hc : m.stochastic = true ∨ m.cache.containsKey m.cache_key = false
    · rw [Match.play_fresh_cache m flips hc]
      split
      · intro k v hkv
        by_cases hkk : k = m.cache_key
        · subst hkk
          rw [DCache.lookup_insert_self] at hkv
          have hv : v = ((m.freshPlayers flips).1.history).zip
              ((m.freshPlayers flips).2.history) := by
            injection hkv with h'
            exact h'.symm
          rw [hv, List.length_zip, Match.freshPlayers_fst_hist,
            Match.freshPlayers_snd_hist, min_self, hk]
        · rw [DCache.lookup_insert_ne _ _ _ _ hkk] at hkv
          exact hwf k v hkv
      · exact hwf
    · push_neg at hc
      rw [Match.play_of_hit m flips (Bool.not_eq_true _ ▸ hc.1)
        (Bool.not_eq_false _ ▸ hc.2)]
      exact hwf

/-- Witness for C6 at the two-turn deterministic match over the empty
cache. -/
theorem claim6_witness :
    0 ≤ m0.turns ∧ m0.cache_key.2.2 = m0.turns ∧
    ((m0.play noFlips).result.length : Int) = m0.turns := by
  refine ⟨by decide, rfl, ?_⟩
  exact (claim6_lengths m0 noFlips (by decide) rfl cacheWF_empty).2.2.1

/-- A match holding a played tie record `[(C,C)]`. -/
def mTie : Match := { m0 with result := [(Action.C, Action.C)] }

/-- A match holding a played record `[(C,D)]`, won by player 2. -/
def mWin : Match := { m0 with result := [(Action.C, Action.D)] }

/-- C7: `winner()` returns the distinct "no data" sentinel on an empty
stored record (which is the state before any `play()`), the "no winner"
sentinel when the final scores of a non-empty record are equal, the
corresponding player on a strictly higher final score, and the two
sentinels are distinguishable. -/
theorem claim7_winner (m : Match) :
    (m.result = [] → m.winner = WinnerResult.noData) ∧
    (∀ s1 s2 : ℚ, compute_final_score m.result m.game = some (s1, s2) →
      ((s1 = s2 → m.winner = WinnerResult.noWinner) ∧
       (s1 > s2 → m.winner = WinnerResult.winner m.players.1) ∧
       (s2 > s1 → m.winner = WinnerResult.winner m.players.2))) ∧
    WinnerResult.noData ≠ WinnerResult.noWinner := by
  refine ⟨?_, ?_, fun h => WinnerResult.noConfusion h⟩
  · intro hE
    have hf : compute_final_score m.result m.game = none := by
      rw [hE]
      rfl
    have hw : compute_winner_index m.result m.game = WinnerIx.noPlays := by
      unfold compute_winner_index
      rw [hf]
    unfold Match.winner
    rw [hw]
  · intro s1 s2 hf
    have hw : compute_winner_index m.result m.game
        = (if s1 = s2 then WinnerIx.tie
           else if s1 > s2 then WinnerIx.one else WinnerIx.two) := by
      unfold compute_winner_index
      rw [hf]
    refine ⟨?_, ?_, ?_⟩
    · intro he
      unfold Match.winner
      rw [hw, if_pos he]
    · intro hgt
      unfold Match.winner
      rw [hw, if_neg (ne_of_gt hgt), if_pos hgt]
    · intro hlt
      unfold Match.winner
      rw [hw, if_neg (ne_of_lt hlt), if_neg (lt_asymm hlt)]

/-- Witness for C7: no-data at the unplayed match, the tie sentinel on a
`[(C,C)]` record, and player 2 on a `[(C,D)]` record. -/
theorem claim7_witness :
    m0.winner = WinnerResult.noData ∧
    mTie.winner = WinnerResult.noWinner ∧
    mWin.winner = WinnerResult.winner mWin.players.2 := by
  refine ⟨(claim7_winner m0).1 rfl, ?_, ?_⟩
  · refine ((claim7_winner mTie).2.1 3 3 ?_).1 rfl
    show compute_final_score [(Action.C, Action.C)] defaultGame = some (3, 3)
    norm_num [compute_final_score, Game.score, defaultGame]
  · refine ((claim7_winner mWin).2.1 0 5 ?_).2.2 (by norm_num)
    show compute_final_score [(Action.C, Action.D)] defaultGame = some (0, 5)
    norm_num [compute_final_score, Game.score, defaultGame]

/-- C8: with `turns = 0` and a deterministic eligible setup (noise 0,
non-stochastic players, mutable cache, key initially absent), `play()`
returns the empty record, writes it under the match's key, and a second
`play()` finds the match deterministic with its key present — the
cached-path condition — and returns the empty record with the players
untouched. -/
theorem claim8_zero_turns (p q : Player) (g : Option Game) (c : DCache)
    (ma : Option (List (String × AttrVal))) (flips flips2 : Nat → Bool × Bool)
    (hp : p.spec.stochastic = false) (hq : q.spec.stochastic = false)
    (hmut : c.mutable = true)
    (habs : c.containsKey (p.pid, q.pid, 0) = false) :
    ((Match.init (p, q) 0 g (some c) 0 ma).play flips).result = [] ∧
    (((Match.init (p, q) 0 g (some c) 0 ma).play flips).cache).lookup
        (Match.init (p, q) 0 g (some c) 0 ma).cache_key = some [] ∧
    ((Match.init (p, q) 0 g (some c) 0 ma).play flips).stochastic = false ∧
    (((Match.init (p, q) 0 g (some c) 0 ma).play flips).cache).containsKey
        ((Match.init (p, q) 0 g (some c) 0 ma).play flips).cache_key = true ∧
    ((((Match.init (p, q) 0 g (some c) 0 ma).play flips).play flips2).result
        = []) ∧
    ((((Match.init (p, q) 0 g (some c) 0 ma).play flips).play flips2).players
        = ((Match.init (p, q) 0 g (some c) 0 ma).play flips).players) := by
  set m : Match := Match.init (p, q) 0 g (some c) 0 ma with hmdef
  have hs : m.stochastic = false := by
    rw [Bool.eq_false_iff]
    intro h
    rcases (Match.stochastic_iff m).mp h with h | h | h
    · exact h rfl
    · exact Bool.false_ne_true (hp.symm.trans h)
    · exact Bool.false_ne_true (hq.symm.trans h)
  have habs' : m.cache.containsKey m.cache_key = false := habs
  have hupd : m.cache_update_required = true :=
    (Match.cache_update_required_iff m).mpr ⟨rfl, hmut, hp, hq⟩
  have hres : (m.play flips).result = [] := by
    rw [Match.play_fresh_result m flips (Or.inr habs')]
    rfl
  have hcache : ((m.play flips).cache).lookup m.cache_key = some [] := by
    rw [Match.play_fresh_cache m flips (Or.inr habs'), hupd, if_pos rfl,
      DCache.lookup_insert_self]
    rfl
  have hkey : (m.play flips).cache_key = m.cache_key :=
    (Match.play_scalars m flips).2.1
  have hs1 : (m.play flips).stochastic = false :=
    (Match.play_stochastic m flips).trans hs
  have hk1 : ((m.play flips).cache).containsKey (m.play flips).cache_key
      = true := by
    show (((m.play flips).cache).lookup (m.play flips).cache_key).isSome = true
    rw [hkey, hcache]
    rfl
  refine ⟨hres, hcache, hs1, hk1, ?_, ?_⟩
  · rw [Match.play_of_hit (m.play flips) flips2 hs1 hk1]
    show ((m.play flips).cache).get ((m.play flips).cache_key) = []
    rw [DCache.get, hkey, hcache]
    rfl
  · rw [Match.play_of_hit (m.play flips) flips2 hs1 hk1]

/-- Witness for C8 at two cooperators, a fresh mutable cache and zero
turns. -/
theorem claim8_witness :
    ((Match.init (coopPlayer 0, coopPlayer 1) 0 none
        (some { mutable := true, entries := [] }) 0 none).play noFlips).result
      = [] ∧
    (((Match.init (coopPlayer 0, coopPlayer 1) 0 none
        (some { mutable := true, entries := [] }) 0 none).play
          noFlips).play noFlips).result = [] := by
  have h := claim8_zero_turns (coopPlayer 0) (coopPlayer 1) none
    { mutable := true, entries := [] } none noFlips noFlips rfl rfl rfl rfl
  exact ⟨h.1, h.2.2.2.2.1⟩

/-- C9: the cache key is computed at construction from the originally
supplied players and `turns`; reassigning the `players` property leaves it
unchanged, and `play()` never changes it, so later plays use the
construction-time identities. -/
theorem claim9_cache_key_stable (players : Player × Player) (turns : Int)
    (game : Option Game) (dc : Option DCache) (noise : ℚ)
    (ma : Option (List (String × AttrVal))) :
    (Match.init players turns game dc noise ma).cache_key
      = (players.1.pid, players.2.pid, turns) ∧
    (∀ ps : Player × Player,
      ((Match.init players turns game dc noise ma).setPlayers ps).cache_key
        = (players.1.pid, players.2.pid, turns)) ∧
    (∀ (m : Match) (flips : Nat → Bool × Bool),
      (m.play flips).cache_key = m.cache_key) :=
  ⟨rfl, fun _ => rfl, fun m flips => (Match.play_scalars m flips).2.1⟩

/-- C10: an explicitly supplied `match_attributes` mapping is stored and
passed to both players exactly as given — no default entries are merged
in; in particular the empty mapping gives the players an empty attribute
mapping. -/
theorem claim10_explicit_attrs (players : Player × Player) (turns : Int)
    (game : Option Game) (dc : Option DCache) (noise : ℚ)
    (ma : List (String × AttrVal)) :
    (Match.init players turns game dc noise (some ma)).match_attributes
      = ma ∧
    ((Match.init players turns game dc noise (some ma)).players.1).attrs
      = ma ∧
    ((Match.init players turns game dc noise (some ma)).players.2).attrs
      = ma ∧
    ((Match.init players turns game dc noise (some [])).players.1).attrs
      = [] ∧
    ((Match.init players turns game dc noise (some [])).players.2).attrs
      = [] :=
  ⟨rfl, rfl, rfl, rfl, rfl⟩

end Axelrod
